import Mathlib

/-!
Verification development for the LiDAR processing and analysis package
("lidarviewer").  The definitions below are shallow embeddings of functions
from the repository sources; doc comments cite the file and line range each
definition was translated from.  Double-precision scalars of the original
code are modelled by exact rationals.  Definitions whose source file is not
part of the repository snapshot carry a doc comment starting with
"Modelled from the spec:".
-/

/-- Spatial vector / point with three rational coordinates, standing in for
the package's double- or single-precision points, vectors and colors. -/
structure Vec3 where
  x : ℚ
  y : ℚ
  z : ℚ
deriving DecidableEq

def Vec3.add (a b : Vec3) : Vec3 := ⟨a.x + b.x, a.y + b.y, a.z + b.z⟩

def Vec3.sub (a b : Vec3) : Vec3 := ⟨a.x - b.x, a.y - b.y, a.z - b.z⟩

def Vec3.negate (a : Vec3) : Vec3 := ⟨-a.x, -a.y, -a.z⟩

instance : Add Vec3 := ⟨Vec3.add⟩

instance : Sub Vec3 := ⟨Vec3.sub⟩

instance : Neg Vec3 := ⟨Vec3.negate⟩

def Vec3.zero : Vec3 := ⟨0, 0, 0⟩

/-- Squared distance between two points (Geometry::sqrDist of the Vrui
geometry library, as used throughout the repository). -/
def sqrDist (p q : Vec3) : ℚ :=
  (p.x - q.x) ^ 2 + (p.y - q.y) ^ 2 + (p.z - q.z) ^ 2

/-! ## Primitive save/load offset translation (claims C7, C8) -/

/-- Embeds the point-writing convention of the primitive writers
(PlanePrimitive::write, src/PlanePrimitive.cpp lines 142-157): a
characteristic point is stored translated by the given translation vector. -/
def primitiveWritePoint (center translation : Vec3) : Vec3 := center + translation

/-- Embeds the point-reading convention of the primitive readers
(PlanePrimitive::read, src/PlanePrimitive.cpp lines 159-175): the in-memory
point is the stored value translated by the given translation vector. -/
def primitiveReadPoint (stored translation : Vec3) : Vec3 := stored + translation

/-- LidarViewer::savePrimitivesOKCallback writes every primitive with
translation `offsets` (src/Primitive.h line 2430) and
LidarViewer::loadPrimitivesOKCallback reads with translation `-offsets`
(src/Primitive.h lines 2305-2331); this composes the two. -/
def savedThenLoadedPoint (center offsets : Vec3) : Vec3 :=
  primitiveReadPoint (primitiveWritePoint center offsets) (-offsets)

/-- The 39-character version string written by
LidarViewer::savePrimitivesOKCallback (src/Primitive.h line 2400) and
compared against by loadPrimitivesOKCallback (src/Primitive.h line 2291). -/
def primitiveFileHeaderString : String := "LidarViewer primitive file v1.3       \n"

/-- The exact 40 bytes of the version-1.3 primitive file header: the version
string followed by its terminating NUL byte. -/
def expectedHeaderBytes : List Nat :=
  primitiveFileHeaderString.toList.map Char.toNat ++ [0]

/-- Embeds the C `strcmp`-based equality test used on the fixed-size header
buffer (src/Primitive.h line 2291): bytes are compared until a mismatch or a
NUL byte present in both buffers. -/
def strcmpZero : List Nat → List Nat → Bool
  | [], [] => true
  | [], _ :: _ => false
  | _ :: _, [] => false
  | a :: as, b :: bs => if a = b then (if a = 0 then true else strcmpZero as bs) else false

/-- Embeds the record loop of LidarViewer::loadPrimitivesOKCallback
(src/Primitive.h lines 2294-2352): each record starts with an int32 type tag;
tags 0..5 create one primitive each, any other tag raises the unknown-type
error; primitives created before an error are kept.  Returns the created
primitives (by tag) and the error, if any. -/
def loadPrimitiveRecords : List Int → List Int × Option String
  | [] => ([], none)
  | t :: ts =>
    if 0 ≤ t ∧ t ≤ 5 then
      let r := loadPrimitiveRecords ts
      (t :: r.1, r.2)
    else ([], some "Unknown primitive type")

/-- Embeds LidarViewer::loadPrimitivesOKCallback (src/Primitive.h lines
2288-2352): the 40-byte header is checked with strcmp against the exact
version-1.3 string, then records are read until end of file. -/
def loadPrimitivesFile (header : List Nat) (tags : List Int) : List Int × Option String :=
  if strcmpZero header expectedHeaderBytes then loadPrimitiveRecords tags
  else ([], some "Not a valid version 1.3 primitive file")

/-! ## Exporter offset handling (claim C4) -/

/-- Embeds the Offset-file write decision of the preprocessor's main
(src/LidarPreprocessor.cpp lines 1750-1759): the Offset artifact, holding the
three components of the accumulated point offset, is written exactly when
that offset is nonzero. -/
def offsetFileRecords (pointOffset : Vec3) : Option (List ℚ) :=
  if pointOffset = Vec3.zero then none
  else some [pointOffset.x, pointOffset.y, pointOffset.z]

/-- Embeds PointSaver::operator() (src/LidarExporter.cpp lines 53-60): each
visited point is output at its stored position plus the dataset's offset
vector, with its color unchanged. -/
def pointSaverOutput (offset : Vec3) (pts : List (Vec3 × Vec3)) : List (Vec3 × Vec3) :=
  pts.map fun pc => (pc.1 + offset, pc.2)

/-- Embeds the query-box conversion of the exporter's main
(src/LidarExporter.cpp lines 303-312): each user-supplied bound has the
dataset offset subtracted from it. -/
def exporterQueryBox (offset bmin bmax : Vec3) : Vec3 × Vec3 :=
  (bmin - offset, bmax - offset)

/-! ## Octree re-import (claim C3) -/

/-- Old-format octree node (src/LidarPreprocessor.cpp lines 1021-1044): a
node either is a leaf holding its stored points (childrenOffset = 0) or has
exactly 8 children; interior nodes also hold stored points (LOD subsamples),
which the importer must never add.  The point type is abstract. -/
inductive OldNode (α : Type) : Type where
  | leaf (points : List α)
  | interior (points : List α) (c0 c1 c2 c3 c4 c5 c6 c7 : OldNode α)

/-- Embeds readOctreeFileSubtree (src/LidarPreprocessor.cpp lines 1046-1073):
when childrenOffset is nonzero the loader recurses into the 8 children in
index order; otherwise, when the node stores points, it adds them to the
point accumulator. -/
def readOctreeFileSubtree {α : Type} : OldNode α → List α → List α
  | .leaf ps, pa => if ps.length > 0 then pa ++ ps else pa
  | .interior _ c0 c1 c2 c3 c4 c5 c6 c7, pa =>
      readOctreeFileSubtree c7 (readOctreeFileSubtree c6 (readOctreeFileSubtree c5
        (readOctreeFileSubtree c4 (readOctreeFileSubtree c3 (readOctreeFileSubtree c2
          (readOctreeFileSubtree c1 (readOctreeFileSubtree c0 pa)))))))

/-- Points stored at the leaves of an old-format octree, in traversal order. -/
def OldNode.leafPoints {α : Type} : OldNode α → List α
  | .leaf ps => ps
  | .interior _ c0 c1 c2 c3 c4 c5 c6 c7 =>
      c0.leafPoints ++ c1.leafPoints ++ c2.leafPoints ++ c3.leafPoints ++
        c4.leafPoints ++ c5.leafPoints ++ c6.leafPoints ++ c7.leafPoints

/-- New-format octree node as presented by LidarProcessOctree to traversal
functors: every node stores points; an interior node has exactly 8 children. -/
inductive PNode (α : Type) : Type where
  | leaf (points : List α)
  | interior (points : List α) (c0 c1 c2 c3 c4 c5 c6 c7 : PNode α)

/-- Whether a new-format node is a leaf (LidarProcessOctree::Node::isLeaf). -/
def PNode.isLeaf {α : Type} : PNode α → Bool
  | .leaf _ => true
  | .interior .. => false

/-- The points stored directly at a new-format node. -/
def PNode.points {α : Type} : PNode α → List α
  | .leaf ps => ps
  | .interior ps .. => ps

/-- Modelled from the spec: LidarProcessOctree (not under src/) exposes a
traversal that visits every node, children before parent; this lists the
nodes of a subtree in that order. -/
def PNode.postorderNodes {α : Type} : PNode α → List (PNode α)
  | .leaf ps => [.leaf ps]
  | .interior ps c0 c1 c2 c3 c4 c5 c6 c7 =>
      c0.postorderNodes ++ c1.postorderNodes ++ c2.postorderNodes ++ c3.postorderNodes ++
        c4.postorderNodes ++ c5.postorderNodes ++ c6.postorderNodes ++ c7.postorderNodes ++
        [.interior ps c0 c1 c2 c3 c4 c5 c6 c7]

/-- Points stored at the leaves of a new-format octree, in traversal order. -/
def PNode.leafPoints {α : Type} : PNode α → List α
  | .leaf ps => ps
  | .interior _ c0 c1 c2 c3 c4 c5 c6 c7 =>
      c0.leafPoints ++ c1.leafPoints ++ c2.leafPoints ++ c3.leafPoints ++
        c4.leafPoints ++ c5.leafPoints ++ c6.leafPoints ++ c7.leafPoints

/-- Embeds LidarFileLoader::operator() (src/LidarPreprocessor.cpp lines
1112-1124): a node's points are added to the point accumulator only when the
node is a leaf. -/
def lidarFileLoaderStep {α : Type} (pa : List α) (n : PNode α) : List α :=
  if n.isLeaf then pa ++ n.points else pa

/-- Embeds loadLidarFile (src/LidarPreprocessor.cpp lines 1128-1134): the
loader functor is run over every node of the octree in children-first
order. -/
def loadLidarFile {α : Type} (t : PNode α) (pa : List α) : List α :=
  t.postorderNodes.foldl lidarFileLoaderStep pa

/-! ## Point selector tool (claims C5, C6) -/

/-- Selector mode of the point selector tool (LidarViewer::SelectorMode, used
in src/PointSelectorTool.cpp). -/
inductive SelectorMode where
  | Add
  | Subtract
deriving DecidableEq

/-- One octree method call made by PointSelectorTool::frame, identified by the
index of the octree it is made on. -/
inductive ToolEvent where
  | interact (octreeIndex : Nat)
  | select (octreeIndex : Nat)
  | deselect (octreeIndex : Nat)
deriving DecidableEq

/-- Indices of the shown octrees, in increasing order (the loops of
PointSelectorTool::frame run over 0..numOctrees-1 and test showOctrees). -/
def shownIndices (shown : List Bool) : List Nat :=
  (List.range shown.length).filter fun i => shown.getD i false

/-- Embeds PointSelectorTool::buttonCallback (src/PointSelectorTool.cpp lines
126-139): pressing the tool button activates the tool, releasing it
deactivates the tool. -/
def buttonCallbackActive (newButtonState : Bool) : Bool := newButtonState

/-- Embeds PointSelectorTool::frame (src/PointSelectorTool.cpp lines 141-170)
as the sequence of octree calls it makes: nothing when inactive; otherwise an
interact call on every shown octree, followed by a selectPoints call on every
shown octree in Add mode, or a deselectPoints call on every shown octree in
Subtract mode. -/
def frameTrace (active : Bool) (mode : SelectorMode) (shown : List Bool) : List ToolEvent :=
  if active then
    (shownIndices shown).map ToolEvent.interact ++
      (match mode with
       | .Add => (shownIndices shown).map ToolEvent.select
       | .Subtract => (shownIndices shown).map ToolEvent.deselect)
  else []

/-- The interactor built by PointSelectorTool::frame (src/PointSelectorTool.cpp
line 148): a selection sphere given by center and radius. -/
structure Interactor where
  center : Vec3
  radius : ℚ

/-- Whether a point lies inside an interactor's selection sphere. -/
def inSphere (it : Interactor) (p : Vec3) : Bool :=
  decide (sqrDist p it.center ≤ it.radius ^ 2)

/-- Modelled from the spec: LidarOctree::selectPoints (LidarOctree is not
under src/) sets the selection flag of every resident point inside the
interactor's region and leaves every other flag unchanged. -/
def selectPoints (it : Interactor) (sel : Vec3 → Bool) : Vec3 → Bool :=
  fun p => sel p || inSphere it p

/-- Modelled from the spec: LidarOctree::deselectPoints (LidarOctree is not
under src/) clears the selection flag of every resident point inside the
interactor's region and leaves every other flag unchanged. -/
def deselectPoints (it : Interactor) (sel : Vec3 → Bool) : Vec3 → Bool :=
  fun p => sel p && !(inSphere it p)

/-- Embeds the selector-mode dispatch of PointSelectorTool::frame
(src/PointSelectorTool.cpp lines 150-169) for a single octree: a shown octree
receives selectPoints in Add mode and deselectPoints in Subtract mode; an
octree that is not shown is untouched. -/
def frameApplySelection (mode : SelectorMode) (it : Interactor) (shown : Bool)
    (sel : Vec3 → Bool) : Vec3 → Bool :=
  if shown then
    match mode with
    | .Add => selectPoints it sel
    | .Subtract => deselectPoints it sel
  else sel

/-- The concrete scenario's selection sphere: radius 1/10 centered at
(1/2, 1/2, 1/2). -/
def scenarioSphere : Interactor := ⟨⟨1/2, 1/2, 1/2⟩, 1/10⟩

/-! ## Point-file loaders (claims C9, C10) -/

/-- State of the point accumulator as seen by the point-file loaders.
Modelled from the spec: PointAccumulator (not under src/) holds the current
point offset, a coordinate transform and a color-mask configuration, and the
buffered points; addPoint buffers one point under the current configuration.
The opaque tags stand for the transform and color-mask configuration. -/
structure PAState where
  pointOffset : Vec3
  transformTag : Nat
  colorMaskTag : Nat
  addedPoints : List (Vec3 × Vec3 × Vec3)

/-- Modelled from the spec: PointAccumulator::setPointOffset replaces the
accumulator's point offset and changes nothing else. -/
def PAState.setPointOffset (s : PAState) (v : Vec3) : PAState :=
  { s with pointOffset := v }

/-- Modelled from the spec: PointAccumulator::addPoint buffers one point with
its color; the model additionally records the point offset in effect at the
call, since addPoint applies the current offset to the point. -/
def PAState.addPoint (s : PAState) (p c : Vec3) : PAState :=
  { s with addedPoints := s.addedPoints ++ [(p, c, s.pointOffset)] }

/-- One line of an ASCII xyzi input file, as classified by the parser inside
loadPointFileXyzi: a comment or empty line, a line whose numbers parse to a
point, or a line whose numbers fail to parse. -/
inductive XyziLine (α : Type) : Type where
  | comment
  | point (p : α)
  | malformed
deriving DecidableEq

/-- Embeds loadPointFileXyzi (src/LidarPreprocessor.cpp lines 523-561):
comment and empty lines are skipped; a well-formed line adds one point to the
accumulator; a malformed line prints a diagnostic naming its line number and
the loader continues with the next line.  Returns the accumulator and the
line numbers of the printed diagnostics. -/
def loadPointFileXyzi {α : Type} (pa : List α) (lineNumber : Nat) :
    List (XyziLine α) → List α × List Nat
  | [] => (pa, [])
  | .comment :: ls => loadPointFileXyzi pa (lineNumber + 1) ls
  | .point p :: ls => loadPointFileXyzi (pa ++ [p]) (lineNumber + 1) ls
  | .malformed :: ls =>
    let r := loadPointFileXyzi pa (lineNumber + 1) ls
    (r.1, lineNumber :: r.2)

/-- The points of the well-formed lines, in order. -/
def xyziGoodPoints {α : Type} : List (XyziLine α) → List α
  | [] => []
  | .point p :: ls => p :: xyziGoodPoints ls
  | .comment :: ls => xyziGoodPoints ls
  | .malformed :: ls => xyziGoodPoints ls

/-- The line numbers of the malformed lines, counting from the given first
line number. -/
def xyziBadLineNumbers {α : Type} (lineNumber : Nat) : List (XyziLine α) → List Nat
  | [] => []
  | .malformed :: ls => lineNumber :: xyziBadLineNumbers (lineNumber + 1) ls
  | .comment :: ls => xyziBadLineNumbers (lineNumber + 1) ls
  | .point _ :: ls => xyziBadLineNumbers (lineNumber + 1) ls

/-- The LAS file header fields read and tested by loadPointFileLas
(src/LidarPreprocessor.cpp lines 392-426). -/
structure LasHeader where
  signature : List Nat
  pointDataOffset : Nat
  pointDataFormat : Nat
  pointDataRecordLength : Nat
  scale : Vec3
  offset : Vec3

/-- One LAS point record as read by loadPointFileLas: quantized integer
position, intensity, classification byte, and the (optional-format) RGB
triple. -/
structure LasPointRec where
  pos : Int × Int × Int
  intensity : ℚ
  classification : Nat
  rgb : ℚ × ℚ × ℚ

/-- The four signature bytes "LASF" (src/LidarPreprocessor.cpp line 395). -/
def lasfSignature : List Nat := [76, 65, 83, 70]

/-- Expected point data record lengths by point data format
(src/LidarPreprocessor.cpp lines 429-432). -/
def expectedPointDataRecordLength : Nat → Nat
  | 0 => 20
  | 1 => 28
  | 2 => 26
  | 3 => 34
  | 4 => 57
  | _ => 63

/-- Point data formats that carry RGB data (src/LidarPreprocessor.cpp lines
449-452). -/
def lasHaveRgb (fmt : Nat) : Bool := fmt == 2 || fmt == 3

/-- Dequantized position of a LAS point record: stored integer coordinates
times the header's scale (src/LidarPreprocessor.cpp lines 475-479). -/
def lasPointPosition (scale : Vec3) (r : LasPointRec) : Vec3 :=
  ⟨(r.pos.1 : ℚ) * scale.x, (r.pos.2.1 : ℚ) * scale.y, (r.pos.2.2 : ℚ) * scale.z⟩

/-- Color assigned to a LAS point record: stored RGB for formats carrying it,
otherwise the intensity replicated to three channels
(src/LidarPreprocessor.cpp lines 493-507). -/
def lasPointColor (fmt : Nat) (r : LasPointRec) : Vec3 :=
  if lasHaveRgb fmt then ⟨r.rgb.1, r.rgb.2.1, r.rgb.2.2⟩
  else ⟨r.intensity, r.intensity, r.intensity⟩

/-- Classification bit of a LAS point record: bit (classification mod 32)
(src/LidarPreprocessor.cpp line 488). -/
def lasClassBit (classification : Nat) : Nat := 1 <<< (classification % 32)

/-- Embeds the body of the point-record loop of loadPointFileLas
(src/LidarPreprocessor.cpp lines 472-517): a record is stored exactly when
its classification bit is selected by the class mask. -/
def lasRecordStep (classMask : Nat) (hdr : LasHeader) (s : PAState) (r : LasPointRec) :
    PAState :=
  if classMask &&& lasClassBit r.classification ≠ 0 then
    s.addPoint (lasPointPosition hdr.scale r) (lasPointColor hdr.pointDataFormat r)
  else s

/-- Embeds loadPointFileLas (src/LidarPreprocessor.cpp lines 386-521): the
loader returns with the accumulator untouched on a bad signature, a wrong
point record length, an unknown point data format, or a short header; on the
main path it adds the LAS quantization offset to the accumulator's point
offset, reads all point records, stores those whose classification bit is in
the class mask, and restores the original point offset before returning. -/
def loadPointFileLas (pa : PAState) (classMask : Nat) (hdr : LasHeader)
    (recs : List LasPointRec) : PAState :=
  if hdr.signature ≠ lasfSignature then pa
  else if hdr.pointDataFormat < 6 ∧
      hdr.pointDataRecordLength < expectedPointDataRecordLength hdr.pointDataFormat then pa
  else if 6 ≤ hdr.pointDataFormat then pa
  else if hdr.pointDataOffset < 227 then pa
  else
    let originalPointOffset := pa.pointOffset
    let pa1 := pa.setPointOffset (originalPointOffset + hdr.offset)
    let pa2 := recs.foldl (lasRecordStep classMask hdr) pa1
    pa2.setPointOffset originalPointOffset

/-! ## Node normal calculator (claims C1, C2) -/

/-- Cubic node domain: center and radius (LidarTypes' Cube, as used by
getDomain in src/unnamed/part_002). -/
structure Cube where
  cx : ℚ
  cy : ℚ
  cz : ℚ
  radius : ℚ

/-- Modelled from the spec: Cube::findChild (the Cube class is not under
src/) returns the index of the child subdomain containing a point under the
midpoint-split rule, with the half-open tie-break assigning a point on a
split plane to the upper child. -/
def Cube.findChild (d : Cube) (p : Vec3) : Fin 8 :=
  ⟨(if d.cx ≤ p.x then 1 else 0) + (if d.cy ≤ p.y then 2 else 0) +
      (if d.cz ≤ p.z then 4 else 0), by split_ifs <;> omega⟩

/-- Whether a point lies in a cube's (closed) domain. -/
def Cube.containsPt (d : Cube) (p : Vec3) : Prop :=
  (d.cx - d.radius ≤ p.x ∧ p.x ≤ d.cx + d.radius) ∧
  (d.cy - d.radius ≤ p.y ∧ p.y ≤ d.cy + d.radius) ∧
  (d.cz - d.radius ≤ p.z ∧ p.z ≤ d.cz + d.radius)

/-- Whether a point lies in the half-open domain of child `i` of a cube,
under the same tie-break convention as Cube.findChild. -/
def Cube.childContainsPt (d : Cube) (i : Fin 8) (p : Vec3) : Prop :=
  (if i.val % 2 = 1 then d.cx ≤ p.x ∧ p.x ≤ d.cx + d.radius
   else d.cx - d.radius ≤ p.x ∧ p.x < d.cx) ∧
  (if i.val / 2 % 2 = 1 then d.cy ≤ p.y ∧ p.y ≤ d.cy + d.radius
   else d.cy - d.radius ≤ p.y ∧ p.y < d.cy) ∧
  (if i.val / 4 = 1 then d.cz ≤ p.z ∧ p.z ≤ d.cz + d.radius
   else d.cz - d.radius ≤ p.z ∧ p.z < d.cz)

/-- Embeds FindPoint::operator() (src/unnamed/part_002 lines 56-60): the
functor records a visited point exactly when its squared distance from the
query point is zero. -/
def findPointStep (queryPoint : Vec3) (found : Option Vec3) (lp : Vec3) : Option Vec3 :=
  if sqrDist lp queryPoint = 0 then some lp else found

/-- Runs the FindPoint functor over a node's stored points.  Modelled from
the spec for the traversal only: LidarProcessOctree::processNodePointsDirected
(not under src/) applies the functor to the points stored at the node. -/
def findPointRun (queryPoint : Vec3) (nodePoints : List Vec3) : Option Vec3 :=
  nodePoints.foldl (findPointStep queryPoint) none

/-- Embeds the fatal corruption error raised by
NodeNormalCalculator::subsampleThreadMethod (src/unnamed/part_002 line 237):
the message includes the point's spatial coordinates. -/
def ratCoordString (q : ℚ) : String := toString q.num ++ "/" ++ toString q.den

/-- The corruption error message, with the point's coordinates interpolated
(src/unnamed/part_002 line 237). -/
def corruptionMessage (p : Vec3) : String :=
  "Octree file corrupted around position (" ++ ratCoordString p.x ++ ", " ++
    ratCoordString p.y ++ ", " ++ ratCoordString p.z ++ ")"

/-- Embeds the ancestor search of NodeNormalCalculator::subsampleThreadMethod
(src/unnamed/part_002 lines 227-241): the child node whose domain contains
the node's point is searched with FindPoint for an exact spatial match; if
none exists the fatal corruption error is raised. -/
def subsampleFindAncestor (d : Cube) (children : Fin 8 → List Vec3) (p : Vec3) :
    Except String Vec3 :=
  match findPointRun p (children (d.findChild p)) with
  | none => .error (corruptionMessage p)
  | some fp => .ok fp

/-- One node's contribution to the normals file: its data offset and point
count from the index, and its computed normal records.  The record type is
abstract. -/
structure NormalNode (α : Type) where
  dataOffset : Nat
  numPoints : Nat
  normals : List α
deriving DecidableEq

/-- Byte position at which NodeNormalCalculator::operator() positions the
normals file before writing a node's records (src/unnamed/part_002 line 391):
header size plus record size times the node's data offset. -/
def nodeWritePos (headerSize recordSize : Nat) {α : Type} (n : NormalNode α) : Nat :=
  headerSize + recordSize * n.dataOffset

/-- Byte position of record index `r` in a data file with the given header
and record sizes. -/
def recordBytePos (headerSize recordSize r : Nat) : Nat := headerSize + recordSize * r

/-- Modelled from the spec: the Normals file data header records the record
size; the constructor (src/unnamed/part_002 lines 291-294) writes it at byte
position 0, before every record. -/
def normalFileHeader (recordSize : Nat) : Nat × Nat := (0, recordSize)

/-- Effect of one node's write on the record slots of the normals file
(src/unnamed/part_002 lines 390-392): numPoints consecutive records starting
at record index dataOffset are overwritten with the node's normals. -/
def writeNodeRecords {α : Type} (file : Nat → Option α) (n : NormalNode α) :
    Nat → Option α :=
  fun r =>
    if n.dataOffset ≤ r ∧ r < n.dataOffset + n.numPoints then n.normals.get? (r - n.dataOffset)
    else file r

/-- Record slots of the normals file after the calculator has processed every
node in the given order, starting from an empty file. -/
def runNormalCalculator {α : Type} (nodes : List (NormalNode α)) : Nat → Option α :=
  nodes.foldl writeNodeRecords fun _ => none

/-- Two nodes occupy disjoint record ranges (the indexing scheme shared with
the point file guarantees this for distinct nodes). -/
def nodesDisjoint {α : Type} (a b : NormalNode α) : Prop :=
  a.dataOffset + a.numPoints ≤ b.dataOffset ∨ b.dataOffset + b.numPoints ≤ a.dataOffset

instance {α : Type} (a b : NormalNode α) : Decidable (nodesDisjoint a b) := by
  unfold nodesDisjoint
  infer_instance

/-! ## Helper lemmas -/

theorem Vec3.ext_xyz {a b : Vec3} (hx : a.x = b.x) (hy : a.y = b.y) (hz : a.z = b.z) : a = b := by
  cases a
  cases b
  simp_all

theorem Vec3.add_x (a b : Vec3) : (a + b).x = a.x + b.x := rfl

theorem Vec3.add_y (a b : Vec3) : (a + b).y = a.y + b.y := rfl

theorem Vec3.add_z (a b : Vec3) : (a + b).z = a.z + b.z := rfl

theorem Vec3.sub_x (a b : Vec3) : (a - b).x = a.x - b.x := rfl

theorem Vec3.sub_y (a b : Vec3) : (a - b).y = a.y - b.y := rfl

theorem Vec3.sub_z (a b : Vec3) : (a - b).z = a.z - b.z := rfl

theorem Vec3.neg_x (a : Vec3) : (-a).x = -a.x := rfl

theorem Vec3.neg_y (a : Vec3) : (-a).y = -a.y := rfl

theorem Vec3.neg_z (a : Vec3) : (-a).z = -a.z := rfl

theorem readOctreeFileSubtree_eq {α : Type} (t : OldNode α) :
    ∀ pa : List α, readOctreeFileSubtree t pa = pa ++ t.leafPoints := by
  induction t with
  | leaf ps =>
    intro pa
    by_cases h : ps.length > 0
    · simp [readOctreeFileSubtree, OldNode.leafPoints, h]
    · have hnil : ps = [] := by
        cases ps with
        | nil => rfl
        | cons a l => simp at h
      subst hnil
      simp [readOctreeFileSubtree, OldNode.leafPoints]
  | interior ps c0 c1 c2 c3 c4 c5 c6 c7 ih0 ih1 ih2 ih3 ih4 ih5 ih6 ih7 =>
    intro pa
    simp [readOctreeFileSubtree, OldNode.leafPoints, ih0, ih1, ih2, ih3, ih4, ih5, ih6, ih7,
      List.append_assoc]

theorem foldl_loader_eq {α : Type} (t : PNode α) :
    ∀ pb : List α, t.postorderNodes.foldl lidarFileLoaderStep pb = pb ++ t.leafPoints := by
  induction t with
  | leaf ps =>
    intro pb
    simp [PNode.postorderNodes, lidarFileLoaderStep, PNode.isLeaf, PNode.points,
      PNode.leafPoints]
  | interior ps c0 c1 c2 c3 c4 c5 c6 c7 ih0 ih1 ih2 ih3 ih4 ih5 ih6 ih7 =>
    intro pb
    simp [PNode.postorderNodes, List.foldl_append, ih0, ih1, ih2, ih3, ih4, ih5, ih6, ih7,
      lidarFileLoaderStep, PNode.isLeaf, PNode.leafPoints, List.append_assoc]

/-! ## Claim theorems -/

/-- Claim C8: saving the primitive list translates each characteristic point
by the positive offset vector and loading applies the negated offset vector,
so the loaded point equals (center + offsets) - offsets, which is the
original center under exact vector arithmetic. -/
theorem C8_primitive_offset_roundtrip (center offsets : Vec3) :
    savedThenLoadedPoint center offsets = center ∧
    savedThenLoadedPoint center offsets = (center + offsets) - offsets := by
  constructor <;>
    · apply Vec3.ext_xyz <;>
        simp only [savedThenLoadedPoint, primitiveReadPoint, primitiveWritePoint,
          Vec3.add_x, Vec3.add_y, Vec3.add_z, Vec3.sub_x, Vec3.sub_y, Vec3.sub_z,
          Vec3.neg_x, Vec3.neg_y, Vec3.neg_z] <;>
        ring

/-- Claim C4: the preprocessor writes the Offset file, holding the three
components of the accumulated point offset, exactly when that offset is
nonzero; the exporter outputs every visited point at its stored position plus
the dataset offset and converts a user query box to stored coordinates by
subtracting the offset from its bounds; adding the offset back recovers the
original coordinates exactly. -/
theorem C4_offset_artifact_roundtrip (off bmin bmax original : Vec3)
    (pts : List (Vec3 × Vec3)) :
    ((offsetFileRecords off).isSome ↔ off ≠ Vec3.zero) ∧
    (off ≠ Vec3.zero → offsetFileRecords off = some [off.x, off.y, off.z]) ∧
    (∀ i, (pointSaverOutput off pts).get? i = (pts.get? i).map fun pc => (pc.1 + off, pc.2)) ∧
    exporterQueryBox off bmin bmax = (bmin - off, bmax - off) ∧
    (original - off) + off = original := by
  refine ⟨?_, ?_, ?_, rfl, ?_⟩
  · by_cases h : off = Vec3.zero <;> simp [offsetFileRecords, h]
  · intro h
    simp [offsetFileRecords, h]
  · intro i
    simp [pointSaverOutput, List.get?_eq_getElem?, List.getElem?_map]
  · apply Vec3.ext_xyz <;>
      simp only [Vec3.add_x, Vec3.add_y, Vec3.add_z, Vec3.sub_x, Vec3.sub_y, Vec3.sub_z] <;>
      ring

/-- Claim C3: re-importing an existing octree dataset adds to the point
accumulator exactly the points stored at leaf nodes, each exactly once, in
traversal order: the old-format loader recurses into the 8 children when
childrenOffset is nonzero and otherwise adds the node's stored points, and
the new-format loader adds points only at leaves; points stored at interior
nodes are never added. -/
theorem C3_reimport_adds_leaf_points {α : Type} [DecidableEq α] (t : OldNode α)
    (u : PNode α) (pa pb : List α) (x : α) :
    readOctreeFileSubtree t pa = pa ++ t.leafPoints ∧
    loadLidarFile u pb = pb ++ u.leafPoints ∧
    (readOctreeFileSubtree t []).count x = t.leafPoints.count x ∧
    (loadLidarFile u []).count x = u.leafPoints.count x := by
  refine ⟨readOctreeFileSubtree_eq t pa, foldl_loader_eq u pb, ?_, ?_⟩
  · rw [readOctreeFileSubtree_eq t []]
    simp
  · rw [show loadLidarFile u [] = [] ++ u.leafPoints from foldl_loader_eq u []]
    simp

theorem list_get?_some_mem {γ : Type} :
    ∀ (l : List γ) (n : Nat) (e : γ), l.get? n = some e → e ∈ l := by
  intro l
  induction l with
  | nil =>
    intro n e h
    simp [List.get?] at h
  | cons a t ih =>
    intro n e h
    cases n with
    | zero =>
      simp [List.get?] at h
      simp [h]
    | succ m =>
      simp only [List.get?] at h
      exact List.mem_cons_of_mem a (ih m e h)

theorem list_get?_append_left {γ : Type} :
    ∀ (l m : List γ) (n : Nat), n < l.length → (l ++ m).get? n = l.get? n := by
  intro l
  induction l with
  | nil =>
    intro m n h
    simp at h
  | cons a t ih =>
    intro m n h
    cases n with
    | zero => rfl
    | succ k =>
      simp only [List.cons_append, List.get?]
      exact ih m k (by simpa using h)

theorem list_get?_append_right {γ : Type} :
    ∀ (l m : List γ) (n : Nat), l.length ≤ n → (l ++ m).get? n = m.get? (n - l.length) := by
  intro l
  induction l with
  | nil =>
    intro m n h
    simp
  | cons a t ih =>
    intro m n h
    cases n with
    | zero => simp at h
    | succ k =>
      simp only [List.cons_append, List.get?, List.length_cons, Nat.succ_sub_succ]
      exact ih m k (by simpa using h)

theorem list_get?_some_lt {γ : Type} :
    ∀ (l : List γ) (n : Nat) (e : γ), l.get? n = some e → n < l.length := by
  intro l
  induction l with
  | nil =>
    intro n e h
    simp [List.get?] at h
  | cons a t ih =>
    intro n e h
    cases n with
    | zero => simp
    | succ m =>
      simp only [List.get?] at h
      simpa using ih m e h

theorem list_getD_of_get? {γ : Type} :
    ∀ (l : List γ) (n : Nat) (e d : γ), l.get? n = some e → l.getD n d = e := by
  intro l
  induction l with
  | nil =>
    intro n e d h
    simp [List.get?] at h
  | cons a t ih =>
    intro n e d h
    cases n with
    | zero =>
      simp [List.get?] at h
      simp [List.getD, h]
    | succ m =>
      simp only [List.get?] at h
      simpa [List.getD] using ih m e d h

/-- Claim C6: on every frame in which a point selector tool is active, each
shown octree receives an interact call before any selectPoints or
deselectPoints call of that frame; a tool in Add mode then calls only
selectPoints, a tool in Subtract mode calls only deselectPoints, and an
inactive tool calls neither. -/
theorem C6_frame_call_order (mode : SelectorMode) (shown : List Bool) :
    frameTrace false mode shown = [] ∧
    frameTrace (buttonCallbackActive false) mode shown = [] ∧
    (∀ i, ToolEvent.deselect i ∉ frameTrace true SelectorMode.Add shown) ∧
    (∀ i, ToolEvent.select i ∉ frameTrace true SelectorMode.Subtract shown) ∧
    (∀ i, shown.get? i = some true → ToolEvent.interact i ∈ frameTrace true mode shown) ∧
    (∀ j k a b, (frameTrace true mode shown).get? j = some (ToolEvent.interact a) →
      ((frameTrace true mode shown).get? k = some (ToolEvent.select b) ∨
        (frameTrace true mode shown).get? k = some (ToolEvent.deselect b)) → j < k) := by
  refine ⟨rfl, rfl, ?_, ?_, ?_, ?_⟩
  · intro i h
    simp [frameTrace, List.mem_append, List.mem_map] at h
  · intro i h
    simp [frameTrace, List.mem_append, List.mem_map] at h
  · intro i h
    have hlen : i < shown.length := list_get?_some_lt shown i true h
    have hget : shown.getD i false = true := list_getD_of_get? shown i true false h
    have helem : shown[i] = true := by
      have h2 : shown[i]? = some true := by
        rw [← List.get?_eq_getElem?]
        exact h
      rw [List.getElem?_eq_getElem hlen] at h2
      exact Option.some.inj h2
    have hmem : i ∈ shownIndices shown := by
      simp [shownIndices, List.mem_filter, List.mem_range, hlen, hget, helem]
    cases mode <;>
      · simp only [frameTrace, if_pos]
        exact List.mem_append_left _ (List.mem_map_of_mem ToolEvent.interact hmem)
  · intro j k a b hj hk
    cases mode with
    | Add =>
      simp only [frameTrace, if_pos] at hj hk
      have hjL : j < ((shownIndices shown).map ToolEvent.interact).length := by
        by_contra hc
        push_neg at hc
        rw [list_get?_append_right _ _ _ hc] at hj
        have := list_get?_some_mem _ _ _ hj
        simp [List.mem_map] at this
      have hkL : ((shownIndices shown).map ToolEvent.interact).length ≤ k := by
        by_contra hc
        push_neg at hc
        rcases hk with hk | hk <;>
          · rw [list_get?_append_left _ _ _ hc] at hk
            have := list_get?_some_mem _ _ _ hk
            simp [List.mem_map] at this
      omega
    | Subtract =>
      simp only [frameTrace, if_pos] at hj hk
      have hjL : j < ((shownIndices shown).map ToolEvent.interact).length := by
        by_contra hc
        push_neg at hc
        rw [list_get?_append_right _ _ _ hc] at hj
        have := list_get?_some_mem _ _ _ hj
        simp [List.mem_map] at this
      have hkL : ((shownIndices shown).map ToolEvent.interact).length ≤ k := by
        by_contra hc
        push_neg at hc
        rcases hk with hk | hk <;>
          · rw [list_get?_append_left _ _ _ hc] at hk
            have := list_get?_some_mem _ _ _ hk
            simp [List.mem_map] at this
      omega

/-- Claim C5: selecting all points within the scenario's sphere and then
deselecting the same region returns every point's selection state to exactly
its pre-selection value, provided no point of the region was selected before;
the Add selector mode invokes selectPoints and the Subtract mode invokes
deselectPoints on a shown octree. -/
theorem C5_add_subtract_inverse (it : Interactor) (sel : Vec3 → Bool)
    (h : ∀ p, inSphere it p = true → sel p = false) (shown : Bool) (p : Vec3) :
    frameApplySelection SelectorMode.Subtract it shown
      (frameApplySelection SelectorMode.Add it shown sel) p = sel p ∧
    frameApplySelection SelectorMode.Add it true sel = selectPoints it sel ∧
    frameApplySelection SelectorMode.Subtract it true sel = deselectPoints it sel := by
  refine ⟨?_, rfl, rfl⟩
  cases shown with
  | false => rfl
  | true =>
    simp only [frameApplySelection, if_pos, selectPoints, deselectPoints]
    by_cases hp : inSphere it p = true
    · simp [hp, h p hp]
    · simp [Bool.not_eq_true] at hp
      simp [hp]

/-- Witness for claim C5: the scenario sphere of radius 1/10 centered at
(1/2, 1/2, 1/2), applied to the all-unselected state at the origin. -/
theorem C5_add_subtract_inverse_witness :
    (∀ p, inSphere scenarioSphere p = true → (fun _ : Vec3 => false) p = false) ∧
    frameApplySelection SelectorMode.Subtract scenarioSphere true
      (frameApplySelection SelectorMode.Add scenarioSphere true (fun _ : Vec3 => false))
      ⟨0, 0, 0⟩ = (fun _ : Vec3 => false) ⟨0, 0, 0⟩ :=
  ⟨fun _ _ => rfl,
    (C5_add_subtract_inverse scenarioSphere (fun _ => false) (fun _ _ => rfl) true ⟨0, 0, 0⟩).1⟩

theorem lasFold_invariant (classMask : Nat) (hdr : LasHeader) :
    ∀ (recs : List LasPointRec) (s : PAState),
      (recs.foldl (lasRecordStep classMask hdr) s).pointOffset = s.pointOffset ∧
      (recs.foldl (lasRecordStep classMask hdr) s).transformTag = s.transformTag ∧
      (recs.foldl (lasRecordStep classMask hdr) s).colorMaskTag = s.colorMaskTag ∧
      (∀ e ∈ (recs.foldl (lasRecordStep classMask hdr) s).addedPoints,
        e ∈ s.addedPoints ∨ e.2.2 = s.pointOffset) ∧
      (∀ e ∈ s.addedPoints, e ∈ (recs.foldl (lasRecordStep classMask hdr) s).addedPoints) := by
  intro recs
  induction recs with
  | nil =>
    intro s
    exact ⟨rfl, rfl, rfl, fun e he => Or.inl he, fun e he => he⟩
  | cons r rs ih =>
    intro s
    simp only [List.foldl_cons]
    rcases ih (lasRecordStep classMask hdr s r) with ⟨h1, h2, h3, h4, h5⟩
    have hstep_off : (lasRecordStep classMask hdr s r).pointOffset = s.pointOffset := by
      unfold lasRecordStep
      split <;> rfl
    have hstep_tr : (lasRecordStep classMask hdr s r).transformTag = s.transformTag := by
      unfold lasRecordStep
      split <;> rfl
    have hstep_cm : (lasRecordStep classMask hdr s r).colorMaskTag = s.colorMaskTag := by
      unfold lasRecordStep
      split <;> rfl
    refine ⟨h1.trans hstep_off, h2.trans hstep_tr, h3.trans hstep_cm, ?_, ?_⟩
    · intro e he
      rcases h4 e he with he2 | he2
      · unfold lasRecordStep at he2
        by_cases hc : classMask &&& lasClassBit r.classification ≠ 0
        · rw [if_pos hc] at he2
          simp only [PAState.addPoint, List.mem_append, List.mem_singleton] at he2
          rcases he2 with he2 | he2
          · exact Or.inl he2
          · subst he2
            exact Or.inr rfl
        · rw [if_neg hc] at he2
          exact Or.inl he2
      · rw [hstep_off] at he2
        exact Or.inr he2
    · intro e he
      apply h5
      unfold lasRecordStep
      split
      · simp only [PAState.addPoint, List.mem_append]
        exact Or.inl he
      · exact he

/-- Claim C10: the LAS loader restores the accumulator's point offset on
every return path, performs every addPoint call under the combined offset
(original plus LAS quantization offset), never drops previously accumulated
points, and never modifies the transform or color-mask configuration. -/
theorem C10_las_loader_frame (pa : PAState) (classMask : Nat) (hdr : LasHeader)
    (recs : List LasPointRec) :
    (loadPointFileLas pa classMask hdr recs).pointOffset = pa.pointOffset ∧
    (loadPointFileLas pa classMask hdr recs).transformTag = pa.transformTag ∧
    (loadPointFileLas pa classMask hdr recs).colorMaskTag = pa.colorMaskTag ∧
    (∀ e ∈ (loadPointFileLas pa classMask hdr recs).addedPoints,
      e ∈ pa.addedPoints ∨ e.2.2 = pa.pointOffset + hdr.offset) ∧
    (∀ e ∈ pa.addedPoints, e ∈ (loadPointFileLas pa classMask hdr recs).addedPoints) ∧
    (hdr.signature ≠ lasfSignature → loadPointFileLas pa classMask hdr recs = pa) := by
  unfold loadPointFileLas
  split
  · exact ⟨rfl, rfl, rfl, fun e he => Or.inl he, fun e he => he, fun _ => rfl⟩
  next hsig =>
    split
    · exact ⟨rfl, rfl, rfl, fun e he => Or.inl he, fun e he => he, fun h => absurd h hsig⟩
    · split
      · exact ⟨rfl, rfl, rfl, fun e he => Or.inl he, fun e he => he, fun h => absurd h hsig⟩
      · split
        · exact ⟨rfl, rfl, rfl, fun e he => Or.inl he, fun e he => he, fun h => absurd h hsig⟩
        · rcases lasFold_invariant classMask hdr recs
              (pa.setPointOffset (pa.pointOffset + hdr.offset)) with ⟨h1, h2, h3, h4, h5⟩
          refine ⟨rfl, h2, h3, ?_, ?_, fun h => absurd h hsig⟩
          · intro e he
            simp only [PAState.setPointOffset] at he
            rcases h4 e he with he2 | he2
            · exact Or.inl he2
            · exact Or.inr he2
          · intro e he
            simp only [PAState.setPointOffset]
            exact h5 e he

theorem loadPointFileXyzi_eq {α : Type} :
    ∀ (ls : List (XyziLine α)) (pa : List α) (n : Nat),
      loadPointFileXyzi pa n ls = (pa ++ xyziGoodPoints ls, xyziBadLineNumbers n ls) := by
  intro ls
  induction ls with
  | nil =>
    intro pa n
    simp [loadPointFileXyzi, xyziGoodPoints, xyziBadLineNumbers]
  | cons l ls ih =>
    intro pa n
    cases l with
    | comment =>
      simp [loadPointFileXyzi, xyziGoodPoints, xyziBadLineNumbers, ih]
    | point p =>
      simp [loadPointFileXyzi, xyziGoodPoints, xyziBadLineNumbers, ih]
    | malformed =>
      simp [loadPointFileXyzi, xyziGoodPoints, xyziBadLineNumbers, ih]

/-- Claim C9: every ASCII xyzi line whose numbers fail to parse yields a
diagnostic (naming its line number) and the loader continues, adding exactly
the well-formed points after the previously accumulated ones; a LAS file with
a bad signature, an unsupported point data format, a wrong point record
length, or a too-short header is skipped in its entirety, leaving the
accumulator exactly as it was; previously accumulated points are always
retained. -/
theorem C9_malformed_input_skipped {α : Type} (ls : List (XyziLine α)) (pa : List α)
    (n : Nat) (acc : PAState) (classMask : Nat) (hdr : LasHeader)
    (recs : List LasPointRec) :
    (loadPointFileXyzi pa n ls).1 = pa ++ xyziGoodPoints ls ∧
    (loadPointFileXyzi pa n ls).2 = xyziBadLineNumbers n ls ∧
    (hdr.signature ≠ lasfSignature → loadPointFileLas acc classMask hdr recs = acc) ∧
    (hdr.pointDataFormat < 6 ∧
        hdr.pointDataRecordLength < expectedPointDataRecordLength hdr.pointDataFormat →
      loadPointFileLas acc classMask hdr recs = acc) ∧
    (6 ≤ hdr.pointDataFormat → loadPointFileLas acc classMask hdr recs = acc) ∧
    (hdr.signature = lasfSignature → hdr.pointDataOffset < 227 →
      loadPointFileLas acc classMask hdr recs = acc) ∧
    (∀ e ∈ acc.addedPoints, e ∈ (loadPointFileLas acc classMask hdr recs).addedPoints) := by
  refine ⟨?_, ?_, ?_, ?_, ?_, ?_, ?_⟩
  · rw [loadPointFileXyzi_eq]
  · rw [loadPointFileXyzi_eq]
  · intro h
    unfold loadPointFileLas
    rw [if_pos h]
  · intro h
    unfold loadPointFileLas
    split_ifs <;> rfl
  · intro h
    unfold loadPointFileLas
    split_ifs <;> rfl
  · intro hsig hoff
    unfold loadPointFileLas
    split_ifs <;> rfl
  · exact (C10_las_loader_frame acc classMask hdr recs).2.2.2.2.1

theorem findPointFold_none_iff (q : Vec3) :
    ∀ (l : List Vec3) (acc : Option Vec3),
      l.foldl (findPointStep q) acc = none ↔ acc = none ∧ ∀ x ∈ l, sqrDist x q ≠ 0 := by
  intro l
  induction l with
  | nil =>
    intro acc
    simp
  | cons a t ih =>
    intro acc
    simp only [List.foldl_cons]
    rw [ih]
    unfold findPointStep
    by_cases h : sqrDist a q = 0
    · rw [if_pos h]
      simp [h]
    · rw [if_neg h]
      simp [List.forall_mem_cons, h]

theorem findPointFold_some (q : Vec3) :
    ∀ (l : List Vec3) (acc : Option Vec3) (fp : Vec3),
      l.foldl (findPointStep q) acc = some fp →
      (fp ∈ l ∧ sqrDist fp q = 0) ∨ acc = some fp := by
  intro l
  induction l with
  | nil =>
    intro acc fp h
    exact Or.inr h
  | cons a t ih =>
    intro acc fp h
    simp only [List.foldl_cons] at h
    rcases ih _ fp h with h2 | h2
    · exact Or.inl ⟨List.mem_cons_of_mem a h2.1, h2.2⟩
    · unfold findPointStep at h2
      by_cases hd : sqrDist a q = 0
      · rw [if_pos hd] at h2
        have ha : a = fp := Option.some.inj h2
        subst ha
        exact Or.inl ⟨List.mem_cons_self a t, hd⟩
      · rw [if_neg hd] at h2
        exact Or.inr h2

/-- Claim C1: during subsampling at an interior node, for every point stored
at the node, the calculator searches the child whose domain contains the
point for an ancestor at exactly zero squared distance; if no exact spatial
match exists it raises the fatal corruption error, whose message includes the
point's spatial coordinates, and a successful search only ever returns an
exact match, never a nearest or approximate one. -/
theorem C1_exact_ancestor_match (d : Cube) (children : Fin 8 → List Vec3) (p : Vec3) :
    ((∃ e, subsampleFindAncestor d children p = Except.error e) ↔
      ∀ q ∈ children (d.findChild p), sqrDist q p ≠ 0) ∧
    (∀ e, subsampleFindAncestor d children p = Except.error e → e = corruptionMessage p) ∧
    (∃ s1 s2 s3 s4, corruptionMessage p =
      s1 ++ ratCoordString p.x ++ s2 ++ ratCoordString p.y ++ s3 ++
        ratCoordString p.z ++ s4) ∧
    (∀ fp, subsampleFindAncestor d children p = Except.ok fp →
      fp ∈ children (d.findChild p) ∧ sqrDist fp p = 0) ∧
    (d.containsPt p → d.childContainsPt (d.findChild p) p) := by
  refine ⟨?_, ?_, ⟨"Octree file corrupted around position (", ", ", ", ", ")", rfl⟩, ?_, ?_⟩
  · unfold subsampleFindAncestor
    cases hm : findPointRun p (children (d.findChild p)) with
    | none =>
      simp only [hm]
      constructor
      · intro _
        exact ((findPointFold_none_iff p _ _).1 hm).2
      · intro _
        exact ⟨corruptionMessage p, rfl⟩
    | some fp =>
      simp only [hm]
      constructor
      · intro he
        rcases he with ⟨e, he⟩
        exact Except.noConfusion he
      · intro hall
        rcases findPointFold_some p _ none fp hm with h2 | h2
        · exact absurd h2.2 (hall fp h2.1)
        · exact Option.noConfusion h2
  · intro e he
    unfold subsampleFindAncestor at he
    cases hm : findPointRun p (children (d.findChild p)) with
    | none =>
      rw [hm] at he
      exact (Except.error.inj he).symm
    | some fp =>
      rw [hm] at he
      exact Except.noConfusion he
  · intro fp hok
    unfold subsampleFindAncestor at hok
    cases hm : findPointRun p (children (d.findChild p)) with
    | none =>
      rw [hm] at hok
      exact Except.noConfusion hok
    | some fp2 =>
      rw [hm] at hok
      have hfp : fp2 = fp := Except.ok.inj hok
      subst hfp
      rcases findPointFold_some p _ none fp2 hm with h2 | h2
      · exact h2
      · exact Option.noConfusion h2
  · intro hc
    obtain ⟨⟨hx1, hx2⟩, ⟨hy1, hy2⟩, ⟨hz1, hz2⟩⟩ := hc
    rcases le_or_lt d.cx p.x with hx | hx <;> rcases le_or_lt d.cy p.y with hy | hy <;>
        rcases le_or_lt d.cz p.z with hz | hz
    · have hfc : (d.findChild p).val = 7 := by
        simp [Cube.findChild, hx, hy, hz]
        try decide
      simp only [Cube.childContainsPt, hfc]
      norm_num
      refine ⟨⟨?_, ?_⟩, ⟨?_, ?_⟩, ⟨?_, ?_⟩⟩ <;> linarith
    · have hfc : (d.findChild p).val = 3 := by
        simp [Cube.findChild, hx, hy, hz.not_le]
        try decide
      simp only [Cube.childContainsPt, hfc]
      norm_num
      refine ⟨⟨?_, ?_⟩, ⟨?_, ?_⟩, ⟨?_, ?_⟩⟩ <;> linarith
    · have hfc : (d.findChild p).val = 5 := by
        simp [Cube.findChild, hx, hy.not_le, hz]
        try decide
      simp only [Cube.childContainsPt, hfc]
      norm_num
      refine ⟨⟨?_, ?_⟩, ⟨?_, ?_⟩, ⟨?_, ?_⟩⟩ <;> linarith
    · have hfc : (d.findChild p).val = 1 := by
        simp [Cube.findChild, hx, hy.not_le, hz.not_le]
        try decide
      simp only [Cube.childContainsPt, hfc]
      norm_num
      refine ⟨⟨?_, ?_⟩, ⟨?_, ?_⟩, ⟨?_, ?_⟩⟩ <;> linarith
    · have hfc : (d.findChild p).val = 6 := by
        simp [Cube.findChild, hx.not_le, hy, hz]
        try decide
      simp only [Cube.childContainsPt, hfc]
      norm_num
      refine ⟨⟨?_, ?_⟩, ⟨?_, ?_⟩, ⟨?_, ?_⟩⟩ <;> linarith
    · have hfc : (d.findChild p).val = 2 := by
        simp [Cube.findChild, hx.not_le, hy, hz.not_le]
        try decide
      simp only [Cube.childContainsPt, hfc]
      norm_num
      refine ⟨⟨?_, ?_⟩, ⟨?_, ?_⟩, ⟨?_, ?_⟩⟩ <;> linarith
    · have hfc : (d.findChild p).val = 4 := by
        simp [Cube.findChild, hx.not_le, hy.not_le, hz]
        try decide
      simp only [Cube.childContainsPt, hfc]
      norm_num
      refine ⟨⟨?_, ?_⟩, ⟨?_, ?_⟩, ⟨?_, ?_⟩⟩ <;> linarith
    · have hfc : (d.findChild p).val = 0 := by
        simp [Cube.findChild, hx.not_le, hy.not_le, hz.not_le]
        try decide
      simp only [Cube.childContainsPt, hfc]
      norm_num
      refine ⟨⟨?_, ?_⟩, ⟨?_, ?_⟩, ⟨?_, ?_⟩⟩ <;> linarith

theorem foldl_writeNodeRecords_untouched {α : Type} :
    ∀ (l : List (NormalNode α)) (f : Nat → Option α) (r : Nat),
      (∀ m ∈ l, ¬(m.dataOffset ≤ r ∧ r < m.dataOffset + m.numPoints)) →
      l.foldl writeNodeRecords f r = f r := by
  intro l
  induction l with
  | nil =>
    intro f r _
    rfl
  | cons a t ih =>
    intro f r h
    simp only [List.foldl_cons]
    rw [ih _ r fun m hm => h m (List.mem_cons_of_mem a hm)]
    unfold writeNodeRecords
    rw [if_neg (h a (List.mem_cons_self a t))]

theorem foldl_writeNodeRecords_read {α : Type} :
    ∀ (l : List (NormalNode α)) (f : Nat → Option α) (n : NormalNode α) (i : Nat),
      l.Pairwise nodesDisjoint → n ∈ l → i < n.numPoints →
      l.foldl writeNodeRecords f (n.dataOffset + i) = n.normals.get? i := by
  intro l
  induction l with
  | nil =>
    intro f n i _ hn _
    exact absurd hn (List.not_mem_nil n)
  | cons a t ih =>
    intro f n i hp hn hi
    rw [List.pairwise_cons] at hp
    rcases hp with ⟨hd, hp⟩
    simp only [List.foldl_cons]
    rcases List.mem_cons.1 hn with rfl | hn2
    · have huntouched : ∀ m ∈ t,
          ¬(m.dataOffset ≤ n.dataOffset + i ∧ n.dataOffset + i < m.dataOffset + m.numPoints) := by
        intro m hm
        have hdm := hd m hm
        unfold nodesDisjoint at hdm
        rcases hdm with hdm | hdm <;> omega
      rw [foldl_writeNodeRecords_untouched t _ _ huntouched]
      unfold writeNodeRecords
      rw [if_pos ⟨Nat.le_add_right _ _, by omega⟩]
      congr 1
      omega
    · exact ih _ n i hp hn2 hi

/-- Claim C2: each node's computed normals occupy exactly numPoints
consecutive records starting at record index dataOffset (byte position
headerSize + recordSize * dataOffset), the byte position of record
dataOffset + i is the node's write position plus recordSize * i, and the
normals file begins with a data header recording the record size; provided
the nodes occupy pairwise disjoint record ranges, running the calculator over
all nodes leaves each node's i-th normal readable at record dataOffset + i. -/
theorem C2_normals_file_indexing {α : Type} (headerSize recordSize : Nat)
    (nodes : List (NormalNode α)) (hdisj : nodes.Pairwise nodesDisjoint)
    (n : NormalNode α) (hn : n ∈ nodes) (i : Nat) (hi : i < n.numPoints) :
    runNormalCalculator nodes (n.dataOffset + i) = n.normals.get? i ∧
    recordBytePos headerSize recordSize (n.dataOffset + i) =
      nodeWritePos headerSize recordSize n + recordSize * i ∧
    normalFileHeader recordSize = (0, recordSize) := by
  refine ⟨foldl_writeNodeRecords_read nodes _ n i hdisj hn hi, ?_, rfl⟩
  unfold recordBytePos nodeWritePos
  ring

/-- Witness for claim C2: two disjoint nodes; the first record of the first
node is readable after the run. -/
theorem C2_normals_file_indexing_witness :
    ([NormalNode.mk 0 1 [(7 : Nat)], NormalNode.mk 1 2 [8, 9]].Pairwise nodesDisjoint) ∧
    (NormalNode.mk 0 1 [(7 : Nat)] ∈
      [NormalNode.mk 0 1 [(7 : Nat)], NormalNode.mk 1 2 [8, 9]]) ∧
    (0 < (NormalNode.mk 0 1 [(7 : Nat)]).numPoints) ∧
    (runNormalCalculator [NormalNode.mk 0 1 [(7 : Nat)], NormalNode.mk 1 2 [8, 9]]
        ((NormalNode.mk 0 1 [(7 : Nat)]).dataOffset + 0) =
      (NormalNode.mk 0 1 [(7 : Nat)]).normals.get? 0 ∧
      recordBytePos 4 12 ((NormalNode.mk 0 1 [(7 : Nat)]).dataOffset + 0) =
        nodeWritePos 4 12 (NormalNode.mk 0 1 [(7 : Nat)]) + 12 * 0 ∧
      normalFileHeader 12 = (0, 12)) :=
  ⟨by decide, by decide, by decide,
    C2_normals_file_indexing 4 12 _ (by decide) _ (by decide) 0 (by decide)⟩

theorem strcmpZero_self : ∀ b : List Nat, strcmpZero b b = true := by
  intro b
  induction b with
  | nil => rfl
  | cons a t ih =>
    unfold strcmpZero
    rw [if_pos rfl]
    by_cases h : a = 0
    · rw [if_pos h]
    · rw [if_neg h]
      exact ih

theorem strcmpZero_imp_eq :
    ∀ (a b : List Nat), a.length = b.length →
      (∀ i, i < b.length - 1 → b.get? i ≠ some 0) →
      strcmpZero a b = true → a = b := by
  intro a
  induction a with
  | nil =>
    intro b hlen _ _
    cases b with
    | nil => rfl
    | cons y bs => simp at hlen
  | cons x as ih =>
    intro b hlen hz hs
    cases b with
    | nil => simp at hlen
    | cons y bs =>
      unfold strcmpZero at hs
      by_cases hxy : x = y
      · rw [if_pos hxy] at hs
        subst hxy
        by_cases hx0 : x = 0
        · subst hx0
          have hbs : bs = [] := by
            by_contra hne
            have hlt : 0 < (0 :: bs).length - 1 := by
              cases bs with
              | nil => exact absurd rfl hne
              | cons c cs => simp
            exact hz 0 hlt rfl
          subst hbs
          have has : as = [] := by simpa using hlen
          subst has
          rfl
        · rw [if_neg hx0] at hs
          have hzs : ∀ i, i < bs.length - 1 → bs.get? i ≠ some 0 := by
            intro i hi h0
            have hlt : i + 1 < (x :: bs).length - 1 := by
              simp only [List.length_cons]
              omega
            exact hz (i + 1) hlt (by simpa using h0)
          rw [ih bs (by simpa using hlen) hzs hs]
      · rw [if_neg hxy] at hs
        exact Bool.noConfusion hs

theorem loadPrimitiveRecords_ok :
    ∀ tags : List Int,
      ((loadPrimitiveRecords tags).2 = none ↔ ∀ t ∈ tags, 0 ≤ t ∧ t ≤ 5) ∧
      ((loadPrimitiveRecords tags).2 = none → (loadPrimitiveRecords tags).1 = tags) := by
  intro tags
  induction tags with
  | nil => simp [loadPrimitiveRecords]
  | cons t ts ih =>
    rcases ih with ⟨ih1, ih2⟩
    by_cases h : 0 ≤ t ∧ t ≤ 5
    · have h2 : (loadPrimitiveRecords (t :: ts)).2 = (loadPrimitiveRecords ts).2 := by
        simp [loadPrimitiveRecords, h]
      have h1 : (loadPrimitiveRecords (t :: ts)).1 = t :: (loadPrimitiveRecords ts).1 := by
        simp [loadPrimitiveRecords, h]
      constructor
      · rw [h2, ih1]
        simp [List.forall_mem_cons, h]
      · intro hnone
        rw [h2] at hnone
        rw [h1, ih2 hnone]
    · constructor
      · constructor
        · intro hnone
          simp [loadPrimitiveRecords, h] at hnone
        · intro hall
          exact absurd (hall t (List.mem_cons_self t ts)) h
      · intro hnone
        simp [loadPrimitiveRecords, h] at hnone

/-- Claim C7: a saved-primitive file is the fixed 40-byte versioned header
followed by one record per primitive with an int32 type tag in 0..5; loading
raises an error exactly when the 40-byte header differs from the version-1.3
string or a record's tag is outside 0..5, and otherwise creates one primitive
per stored record until end of file. -/
theorem C7_primitive_file_format (header : List Nat) (tags : List Int)
    (hlen : header.length = 40) :
    ((loadPrimitivesFile header tags).2 = none ↔
      (header = expectedHeaderBytes ∧ ∀ t ∈ tags, 0 ≤ t ∧ t ≤ 5)) ∧
    (header ≠ expectedHeaderBytes →
      loadPrimitivesFile header tags = ([], some "Not a valid version 1.3 primitive file")) ∧
    ((loadPrimitivesFile header tags).2 = none → (loadPrimitivesFile header tags).1 = tags) := by
  rcases loadPrimitiveRecords_ok tags with ⟨hr1, hr2⟩
  by_cases heq : header = expectedHeaderBytes
  · have hcheck : strcmpZero header expectedHeaderBytes = true := by
      rw [heq]
      exact strcmpZero_self _
    have hfile : loadPrimitivesFile header tags = loadPrimitiveRecords tags := by
      unfold loadPrimitivesFile
      rw [if_pos hcheck]
    rw [hfile]
    refine ⟨?_, fun hne => absurd heq hne, hr2⟩
    rw [hr1]
    simp [heq]
  · have hzpos : ∀ i, i < expectedHeaderBytes.length - 1 →
        expectedHeaderBytes.get? i ≠ some 0 := by decide
    have hexp : expectedHeaderBytes.length = 40 := by decide
    have hcheck : ¬strcmpZero header expectedHeaderBytes = true := by
      intro hc
      exact heq (strcmpZero_imp_eq header expectedHeaderBytes (by rw [hlen, hexp]) hzpos hc)
    have hfile : loadPrimitivesFile header tags =
        ([], some "Not a valid version 1.3 primitive file") := by
      unfold loadPrimitivesFile
      rw [if_neg hcheck]
    rw [hfile]
    refine ⟨?_, fun _ => rfl, ?_⟩
    · constructor
      · intro hnone
        exact Option.noConfusion hnone
      · intro hall
        exact absurd hall.1 heq
    · intro hnone
      exact Option.noConfusion hnone

/-- Witness for claim C7: the exact version-1.3 header with two records of
tags 0 and 4. -/
theorem C7_primitive_file_format_witness :
    expectedHeaderBytes.length = 40 ∧
    (((loadPrimitivesFile expectedHeaderBytes [0, 4]).2 = none ↔
      (expectedHeaderBytes = expectedHeaderBytes ∧
        ∀ t ∈ ([0, 4] : List Int), 0 ≤ t ∧ t ≤ 5)) ∧
    (expectedHeaderBytes ≠ expectedHeaderBytes →
      loadPrimitivesFile expectedHeaderBytes [0, 4] =
        ([], some "Not a valid version 1.3 primitive file")) ∧
    ((loadPrimitivesFile expectedHeaderBytes [0, 4]).2 = none →
      (loadPrimitivesFile expectedHeaderBytes [0, 4]).1 = [0, 4])) :=
  ⟨by decide, C7_primitive_file_format expectedHeaderBytes [0, 4] (by decide)⟩
